import Mathlib

/-
Shallow embedding of notTheStonks/notTheLogger (src/src/index.ts).

The repository is a small structured-logging helper.  We model:
  * the data model (log levels, modes, entries),
  * JSON serialization (JSON.stringify, both compact and 2-space pretty),
  * an idealized synchronous filesystem (directories and files keyed by
    path strings; file contents are modeled at the level of their parse
    status: either the pretty-printed serialization of a list of log
    entries, or raw text on which JSON.parse throws),
  * the Logger constructor, the writeLog method and the level methods,
  * the process-wide registry (getLogger / removeLogger).

Nondeterministic environment inputs of the original code — the current
timestamp (new Date().toISOString()) and the best-effort caller string
obtained from the stack trace (Logger.getCaller) — are passed as explicit
parameters.  The console sink performs no filesystem interaction and
carries no persistent state, so it is not modeled.
-/

namespace NotTheLogger

/-- Possible log levels (type LogLevel in index.ts). -/
inductive LogLevel where
  | debug
  | info
  | warn
  | error
  | fatal
deriving DecidableEq, Repr

/-- The lowercase name of a level, as stored in a LogEntry. -/
def LogLevel.name : LogLevel → String
  | .debug => "debug"
  | .info => "info"
  | .warn => "warn"
  | .error => "error"
  | .fatal => "fatal"

/-- level.toUpperCase() as used in the console tag and the text line. -/
def LogLevel.upper : LogLevel → String
  | .debug => "DEBUG"
  | .info => "INFO"
  | .warn => "WARN"
  | .error => "ERROR"
  | .fatal => "FATAL"

/-- Possible logging modes (type LogMode in index.ts). -/
inductive LogMode where
  | console
  | json
  | txt
deriving DecidableEq, Repr

/-- A JSON value, used for the structured (non-string) message arguments
and for the on-disk JSON file contents. -/
inductive Json where
  | null
  | bool (b : Bool)
  | num (n : Int)
  | str (s : String)
  | arr (elems : List Json)
  | obj (fields : List (String × Json))

/-- JSON string escaping for one character, as performed by
JSON.stringify on the characters appearing in this development
(quote, backslash and the common control characters). -/
def escChar (c : Char) : String :=
  if c = '"' then "\\\""
  else if c = '\\' then "\\\\"
  else if c = '\n' then "\\n"
  else if c = '\r' then "\\r"
  else if c = '\t' then "\\t"
  else String.singleton c

/-- JSON string escaping (body of a quoted JSON string). -/
def escape (s : String) : String :=
  String.join (s.toList.map escChar)

/-- A quoted JSON string literal. -/
def quoteStr (s : String) : String :=
  "\"" ++ escape s ++ "\""

mutual

/-- Compact serialization: JSON.stringify(v) with no space argument. -/
def Json.stringify : Json → String
  | .null => "null"
  | .bool true => "true"
  | .bool false => "false"
  | .num n => toString n
  | .str s => quoteStr s
  | .arr elems => "[" ++ stringifyElems elems ++ "]"
  | .obj fields => "\x7b" ++ stringifyFields fields ++ "\x7d"

/-- Comma-joined compact serializations of array elements. -/
def stringifyElems : List Json → String
  | [] => ""
  | [v] => v.stringify
  | v :: rest => v.stringify ++ "," ++ stringifyElems rest

/-- Comma-joined compact serializations of object fields. -/
def stringifyFields : List (String × Json) → String
  | [] => ""
  | [(k, v)] => quoteStr k ++ ":" ++ v.stringify
  | (k, v) :: rest => quoteStr k ++ ":" ++ v.stringify ++ "," ++ stringifyFields rest

end

mutual

/-- Pretty serialization: JSON.stringify(v, null, 2).  ind is the
current indentation (a run of spaces); nested levels add two spaces. -/
def Json.pretty (ind : String) : Json → String
  | .null => "null"
  | .bool true => "true"
  | .bool false => "false"
  | .num n => toString n
  | .str s => quoteStr s
  | .arr [] => "[]"
  | .arr (v :: rest) =>
      "[\n" ++ prettyElems (ind ++ "  ") v rest ++ "\n" ++ ind ++ "]"
  | .obj [] => "\x7b\x7d"
  | .obj ((k, v) :: rest) =>
      "\x7b\n" ++ prettyFields (ind ++ "  ") k v rest ++ "\n" ++ ind ++ "\x7d"
termination_by v => sizeOf v

/-- Comma-newline-joined pretty elements, each on its own indented line. -/
def prettyElems (ind : String) (v : Json) : List Json → String
  | [] => ind ++ Json.pretty ind v
  | w :: rest => ind ++ Json.pretty ind v ++ ",\n" ++ prettyElems ind w rest
termination_by l => sizeOf v + sizeOf l

/-- Comma-newline-joined pretty object fields, each on its own indented line. -/
def prettyFields (ind : String) (k : String) (v : Json) : List (String × Json) → String
  | [] => ind ++ quoteStr k ++ ": " ++ Json.pretty ind v
  | (k2, v2) :: rest =>
      ind ++ quoteStr k ++ ": " ++ Json.pretty ind v ++ ",\n" ++ prettyFields ind k2 v2 rest
termination_by l => sizeOf v + sizeOf l

end

/-- A single log entry (type LogEntry in index.ts). -/
structure LogEntry where
  timestamp : String
  service : String
  module : String
  caller : String
  level : LogLevel
  message : String
deriving DecidableEq, Repr

/-- The JSON object serialized for one log entry. -/
def LogEntry.toJson (e : LogEntry) : Json :=
  .obj [("timestamp", .str e.timestamp),
        ("service", .str e.service),
        ("module", .str e.module),
        ("caller", .str e.caller),
        ("level", .str e.level.name),
        ("message", .str e.message)]

/-
Filesystem model.  File contents are modeled at the level of their JSON
parse status: `jsonLogs es` stands for the string JSON.stringify of the
serialized entries with null and 2 as the extra arguments, a string JSON.parse maps back to that
array; `plain s` stands for a raw string on which JSON.parse throws
(corrupt content, and the append-only text log, whose line format is
never valid JSON).  Content that is valid JSON but not a serialized
entry array does not arise in any modeled scenario and is outside this
abstraction.
-/

/-- Content of one on-disk file. -/
inductive FileData where
  | jsonLogs (entries : List LogEntry)
  | plain (s : String)
deriving DecidableEq, Repr

/-- The raw text a file content stands for (used only to give
appendFileSync a total meaning; the code only ever appends to the text
log, which always holds plain content). -/
def FileData.render : FileData → String
  | .jsonLogs es => Json.pretty "" (.arr (es.map LogEntry.toJson))
  | .plain s => s

/-- An idealized synchronous filesystem: the set of existing directories
and a finite map from path to file content (association list, first
binding wins, at most one binding per path in every state built here). -/
structure FS where
  dirs : List String
  files : List (String × FileData)
deriving Repr

/-- fs.existsSync on a file path. -/
def FS.existsFile (fs : FS) (p : String) : Bool :=
  (fs.files.lookup p).isSome

/-- fs.existsSync on a directory path. -/
def FS.existsDir (fs : FS) (p : String) : Bool :=
  fs.dirs.contains p

/-- fs.mkdirSync with recursive: true (idempotent creation). -/
def FS.mkdir (fs : FS) (p : String) : FS :=
  { fs with dirs := p :: fs.dirs }

/-- Remove every binding for a path from the file map. -/
def removeFile (p : String) : List (String × FileData) → List (String × FileData)
  | [] => []
  | (q, d) :: rest =>
      if q = p then removeFile p rest else (q, d) :: removeFile p rest

/-- fs.writeFileSync: replace (or create) the file at a path. -/
def FS.writeFile (fs : FS) (p : String) (d : FileData) : FS :=
  { fs with files := (p, d) :: removeFile p fs.files }

/-- fs.appendFileSync: append text to the file at a path, creating it if
absent.  Appending to JSON content would yield generally-unparsable
text; in the modeled program this case is unreachable (append is only
applied to the text log). -/
def FS.appendFile (fs : FS) (p : String) (t : String) : FS :=
  match fs.files.lookup p with
  | none => fs.writeFile p (.plain t)
  | some d => fs.writeFile p (.plain (d.render ++ t))

/-
The Logger class.  `__dirname` (the directory of the compiled module)
is an environment input and is passed as the explicit parameter
`dirname`; path.join is modeled as "/"-separated concatenation.
-/

/-- A Logger instance: the private fields of class Logger in index.ts
(colorMap, which only drives console coloring, is omitted along with the
console sink). -/
structure Logger where
  service : String
  moduleName : String
  logModes : List LogMode
  logFilePath : String
  textLogFilePath : String
deriving DecidableEq, Repr

/-- The Logger constructor: only when txt or json is among the modes it
ensures `<dirname>/logs` exists (creating it if absent) and computes the
per-mode file paths; logFilePath and textLogFilePath start as the empty
string. -/
def Logger.create (dirname service moduleName : String) (mode : List LogMode)
    (fs : FS) : Logger × FS :=
  if mode.contains .txt || mode.contains .json then
    let logsDir := dirname ++ "/logs"
    let fs1 := if fs.existsDir logsDir then fs else fs.mkdir logsDir
    let jsonPath := if mode.contains .json then logsDir ++ "/" ++ service ++ ".log.json" else ""
    let txtPath := if mode.contains .txt then logsDir ++ "/" ++ service ++ ".log.txt" else ""
    ({ service, moduleName, logModes := mode,
       logFilePath := jsonPath, textLogFilePath := txtPath }, fs1)
  else
    ({ service, moduleName, logModes := mode,
       logFilePath := "", textLogFilePath := "" }, fs)

/-- A message argument: a string, or a structured (object) value that
typeof reports as object and JSON.stringify serializes. -/
inductive MsgArg where
  | str (s : String)
  | obj (j : Json)

/-- The flattening performed at the top of writeLog:
map each raw message (JSON.stringify when typeof gives object, as-is
otherwise) and join with comma-space. -/
def flattenMessages (rawMessages : List MsgArg) : String :=
  String.intercalate ", " (rawMessages.map fun m =>
    match m with
    | .str s => s
    | .obj j => j.stringify)

/-- The one line appended to the text log per call:
timestamp service module caller [LEVEL]: message, newline-terminated. -/
def textLine (ts service moduleName caller : String) (level : LogLevel)
    (finalMessage : String) : String :=
  ts ++ " " ++ service ++ " " ++ moduleName ++ " " ++ caller ++ " [" ++
    level.upper ++ "]: " ++ finalMessage ++ "\n"

/-- The LogEntry built inside writeLog (the `const entry` object): current
timestamp, the service and module of the logger, the caller string, the level
and the flattened message. -/
def Logger.mkEntry (lg : Logger) (ts caller : String) (level : LogLevel)
    (rawMessages : List MsgArg) : LogEntry :=
  { timestamp := ts, service := lg.service, module := lg.moduleName,
    caller, level, message := flattenMessages rawMessages }

/-- The `let logs` block of the json sink: if the file exists, read it and
try JSON.parse; on parse failure (content FileData.plain) the catch block
yields the empty array; if the file does not exist, the empty array. -/
def readJsonLogs (fs : FS) (p : String) : List LogEntry :=
  if fs.existsFile p then
    match fs.files.lookup p with
    | some (.jsonLogs es) => es
    | _ => []
  else []

/-- Logger.writeLog.  ts is the value of new Date().toISOString() and
caller the value of Logger.getCaller() at this call.  The console sink
writes no filesystem state and is omitted.  The json sink is guarded by
logModes.includes(json) together with the truthiness of logFilePath
(non-empty string); the txt sink analogously. -/
def Logger.writeLog (lg : Logger) (ts caller : String) (level : LogLevel)
    (rawMessages : List MsgArg) (fs : FS) : FS :=
  let entry := lg.mkEntry ts caller level rawMessages
  let fs1 :=
    if lg.logModes.contains .json && lg.logFilePath ≠ "" then
      fs.writeFile lg.logFilePath
        (.jsonLogs (readJsonLogs fs lg.logFilePath ++ [entry]))
    else fs
  if lg.logModes.contains .txt && lg.textLogFilePath ≠ "" then
    fs1.appendFile lg.textLogFilePath
      (textLine ts lg.service lg.moduleName caller level entry.message)
  else fs1

/-- One observed level-method call: the environment inputs (timestamp,
caller string) together with the level and the message arguments. -/
structure LogCall where
  ts : String
  caller : String
  level : LogLevel
  msgs : List MsgArg

/-- Run a sequence of level-method calls on one logger. -/
def runCalls (lg : Logger) (calls : List LogCall) (fs : FS) : FS :=
  match calls with
  | [] => fs
  | c :: rest => runCalls lg rest (lg.writeLog c.ts c.caller c.level c.msgs fs)

/-
The process-wide registry (the `instances` object, getLogger and
removeLogger).  The own properties of the object are modeled as an
association list (unique keys, lookup returns the first binding).  The
source object is a plain object literal, so a property read
instances[id] also sees the members inherited from Object.prototype —
the miss test !instances[id] is falsy only when the read yields
undefined.  Two models follow: `getLogger` idealizes the miss test as an
own-property lookup (adequate for identities whose key is not an
inherited property name), and `getLoggerJS` below models the full
prototype-chain read.
-/

/-- The process-wide instance cache. -/
def Registry := List (String × Logger)

/-- getLogger: key is the plain concatenation service + moduleName; on a
miss a new Logger is constructed (touching the filesystem) and stored,
on a hit the cached instance is returned and mode is ignored. -/
def getLogger (dirname service moduleName : String) (mode : List LogMode)
    (reg : Registry) (fs : FS) : Logger × Registry × FS :=
  match List.lookup (service ++ moduleName) reg with
  | some lg => (lg, reg, fs)
  | none =>
      let res := Logger.create dirname service moduleName mode fs
      (res.1, (service ++ moduleName, res.1) :: reg, res.2)

/-- Remove every binding for a key from the registry. -/
def removeKey (id : String) : Registry → Registry
  | [] => []
  | (k, lg) :: rest =>
      if k = id then removeKey id rest else (k, lg) :: removeKey id rest

/-- removeLogger: delete instances[service + moduleName]; the filesystem
is not an input at all, so on-disk state is untouched by construction.
The delete operator removes the own property only (a no-op without
error when there is none); inherited Object.prototype members are never
affected, so this definition is faithful for every key. -/
def removeLogger (service moduleName : String) (reg : Registry) : Registry :=
  removeKey (service ++ moduleName) reg

/-- The value a property read on the plain object `instances` can
produce: an own Logger entry, a member inherited from Object.prototype
(a function or object, hence truthy), or undefined. -/
inductive JsValue where
  | logger (lg : Logger)
  | protoFn (name : String)
  | undefined
deriving DecidableEq, Repr

/-- The property names inherited by a plain object literal from
Object.prototype. -/
def objectProtoKeys : List String :=
  ["constructor", "hasOwnProperty", "isPrototypeOf", "propertyIsEnumerable",
    "toLocaleString", "toString", "valueOf", "__proto__",
    "__defineGetter__", "__defineSetter__", "__lookupGetter__", "__lookupSetter__"]

/-- The property read instances[id] on the plain object: the own entry
when present, otherwise the inherited Object.prototype member when id
names one, otherwise undefined. -/
def readProp (reg : Registry) (id : String) : JsValue :=
  match List.lookup id reg with
  | some lg => .logger lg
  | none => if objectProtoKeys.contains id then .protoFn id else .undefined

/-- getLogger with the full plain-object semantics of the source: the
miss test !instances[id] succeeds only when the prototype-chain read is
undefined (own values are Logger objects and inherited members are
functions or objects, all truthy).  On a truthy read the read value —
which for an inherited-member key is not a Logger at all — is returned
unchanged and nothing is constructed or stored. -/
def getLoggerJS (dirname service moduleName : String) (mode : List LogMode)
    (reg : Registry) (fs : FS) : JsValue × Registry × FS :=
  match readProp reg (service ++ moduleName) with
  | .undefined =>
      let res := Logger.create dirname service moduleName mode fs
      (JsValue.logger res.1, (service ++ moduleName, res.1) :: reg, res.2)
  | v => (v, reg, fs)

/-
Helper lemmas (shared infrastructure; not claim theorems).
-/

/-- Left cancellation for string concatenation. -/
theorem strAppendCancel (a b c : String) (h : a ++ b = a ++ c) : b = c := by
  have hd : a.data ++ b.data = a.data ++ c.data := congrArg String.data h
  have h2 := List.append_cancel_left hd
  cases b
  cases c
  simp_all

/-- A string with suffix .log.json differs from the same prefix with
suffix .log.txt. -/
theorem jsonSuffix_ne_txtSuffix (a : String) :
    a ++ ".log.json" ≠ a ++ ".log.txt" := by
  intro h
  have := strAppendCancel _ _ _ h
  simp at this

/-- A string with suffix .log.json is nonempty. -/
theorem jsonSuffix_ne_empty (a : String) : a ++ ".log.json" ≠ "" := by
  intro h
  have hd : (a ++ ".log.json").data = "".data := congrArg String.data h
  simp [String.data] at hd

/-- A string with suffix .log.txt is nonempty. -/
theorem txtSuffix_ne_empty (a : String) : a ++ ".log.txt" ≠ "" := by
  intro h
  have hd : (a ++ ".log.txt").data = "".data := congrArg String.data h
  simp [String.data] at hd

/-- Looking up the removed path finds nothing. -/
theorem lookup_removeFile_self (p : String) (l : List (String × FileData)) :
    List.lookup p (removeFile p l) = none := by
  induction l with
  | nil => rfl
  | cons hd tl ih =>
      obtain ⟨q, d⟩ := hd
      by_cases hq : q = p
      · simpa [removeFile, hq] using ih
      · simp [removeFile, hq, List.lookup, beq_eq_false_iff_ne.mpr (Ne.symm hq), ih]

/-- Removing one path leaves lookups at other paths unchanged. -/
theorem lookup_removeFile_ne (p q : String) (hq : q ≠ p)
    (l : List (String × FileData)) :
    List.lookup q (removeFile p l) = List.lookup q l := by
  induction l with
  | nil => rfl
  | cons hd tl ih =>
      obtain ⟨r, d⟩ := hd
      by_cases hr : r = p
      · subst hr
        simp [removeFile, List.lookup, beq_eq_false_iff_ne.mpr hq, ih]
      · simp [removeFile, hr, List.lookup, ih]

/-- writeFile stores the new content at the written path. -/
theorem lookup_writeFile_self (fs : FS) (p : String) (d : FileData) :
    List.lookup p (fs.writeFile p d).files = some d := by
  simp [FS.writeFile, List.lookup]

/-- writeFile leaves other paths unchanged. -/
theorem lookup_writeFile_ne (fs : FS) (p q : String) (hq : q ≠ p) (d : FileData) :
    List.lookup q (fs.writeFile p d).files = List.lookup q fs.files := by
  simp [FS.writeFile, List.lookup, beq_eq_false_iff_ne.mpr hq,
    lookup_removeFile_ne p q hq]

/-- appendFile leaves other paths unchanged. -/
theorem lookup_appendFile_ne (fs : FS) (p q : String) (hq : q ≠ p) (t : String) :
    List.lookup q (fs.appendFile p t).files = List.lookup q fs.files := by
  unfold FS.appendFile
  cases List.lookup p fs.files <;> simp [lookup_writeFile_ne fs p q hq]

/-- The logModes field of a freshly constructed logger is the mode list
it was constructed with. -/
theorem create_logModes (d s m : String) (mode : List LogMode) (fs : FS) :
    (Logger.create d s m mode fs).1.logModes = mode := by
  unfold Logger.create
  split <;> rfl

/-- The service field of a freshly constructed logger. -/
theorem create_service (d s m : String) (mode : List LogMode) (fs : FS) :
    (Logger.create d s m mode fs).1.service = s := by
  unfold Logger.create
  split <;> rfl

/-- The moduleName field of a freshly constructed logger. -/
theorem create_moduleName (d s m : String) (mode : List LogMode) (fs : FS) :
    (Logger.create d s m mode fs).1.moduleName = m := by
  unfold Logger.create
  split <;> rfl

/-- The JSON file path of a freshly constructed logger: set exactly when
json is among the modes. -/
theorem create_logFilePath (d s m : String) (mode : List LogMode) (fs : FS) :
    (Logger.create d s m mode fs).1.logFilePath =
      if mode.contains .json then d ++ "/logs" ++ "/" ++ s ++ ".log.json" else "" := by
  by_cases hj : LogMode.json ∈ mode <;>
    by_cases ht : LogMode.txt ∈ mode <;>
      simp [Logger.create, hj, ht, List.elem_iff]

/-- The text file path of a freshly constructed logger: set exactly when
txt is among the modes. -/
theorem create_textLogFilePath (d s m : String) (mode : List LogMode) (fs : FS) :
    (Logger.create d s m mode fs).1.textLogFilePath =
      if mode.contains .txt then d ++ "/logs" ++ "/" ++ s ++ ".log.txt" else "" := by
  by_cases hj : LogMode.json ∈ mode <;>
    by_cases ht : LogMode.txt ∈ mode <;>
      simp [Logger.create, hj, ht, List.elem_iff]

/-- For a constructed logger with json enabled, the text path (possibly
empty) never coincides with the JSON path. -/
theorem create_txtPath_ne_jsonPath (d s m : String) (mode : List LogMode) (fs : FS)
    (hj : mode.contains .json = true) :
    (Logger.create d s m mode fs).1.textLogFilePath ≠
      (Logger.create d s m mode fs).1.logFilePath := by
  rw [create_logFilePath, create_textLogFilePath, if_pos hj]
  by_cases ht : mode.contains .txt = true
  · rw [if_pos ht]
    exact fun h => jsonSuffix_ne_txtSuffix (d ++ "/logs" ++ "/" ++ s) h.symm
  · rw [if_neg ht]
    exact fun h => jsonSuffix_ne_empty (d ++ "/logs" ++ "/" ++ s) h.symm

/-- For a constructed logger with json enabled, the JSON path is nonempty
(truthy). -/
theorem create_jsonPath_ne_empty (d s m : String) (mode : List LogMode) (fs : FS)
    (hj : mode.contains .json = true) :
    (Logger.create d s m mode fs).1.logFilePath ≠ "" := by
  rw [create_logFilePath, if_pos hj]
  exact jsonSuffix_ne_empty (d ++ "/logs" ++ "/" ++ s)

/-- Single-call behavior of the json sink: with json enabled, a truthy
JSON path and a text path distinct from it, writeLog replaces the JSON
file with the parsed previous entries (empty on missing or corrupt file)
extended by the new entry. -/
theorem writeLog_json_lookup (lg : Logger) (ts caller : String) (level : LogLevel)
    (msgs : List MsgArg) (fs : FS)
    (hj : lg.logModes.contains .json = true)
    (hp : lg.logFilePath ≠ "")
    (hne : lg.textLogFilePath ≠ lg.logFilePath) :
    List.lookup lg.logFilePath (lg.writeLog ts caller level msgs fs).files =
      some (.jsonLogs (readJsonLogs fs lg.logFilePath ++
        [lg.mkEntry ts caller level msgs])) := by
  have hc1 : (lg.logModes.contains .json && decide (lg.logFilePath ≠ "")) = true := by
    simp [hp, List.elem_iff.mp hj]
  unfold Logger.writeLog
  simp only [hc1, if_true]
  by_cases ht : (lg.logModes.contains .txt && decide (lg.textLogFilePath ≠ "")) = true
  · rw [if_pos ht, lookup_appendFile_ne _ _ _ (Ne.symm hne), lookup_writeFile_self]
  · rw [if_neg ht, lookup_writeFile_self]

/-- The raw text currently stored at a path (empty for a missing file). -/
def FS.fileText (fs : FS) (p : String) : String :=
  match List.lookup p fs.files with
  | none => ""
  | some d => d.render

/-- appendFile at the appended path: the new content is the previous
text extended by the appended text. -/
theorem lookup_appendFile_self (fs : FS) (p t : String) :
    List.lookup p (fs.appendFile p t).files =
      some (.plain (fs.fileText p ++ t)) := by
  unfold FS.appendFile FS.fileText
  cases h : List.lookup p fs.files <;>
    simp [h, lookup_writeFile_self, String.append]

/-- For a constructed logger with txt enabled, the text path is truthy
and never coincides with the JSON path (possibly empty). -/
theorem create_txtPath_props (d s m : String) (mode : List LogMode) (fs : FS)
    (ht : mode.contains .txt = true) :
    (Logger.create d s m mode fs).1.textLogFilePath ≠ "" ∧
      (Logger.create d s m mode fs).1.textLogFilePath ≠
        (Logger.create d s m mode fs).1.logFilePath := by
  rw [create_logFilePath, create_textLogFilePath, if_pos ht]
  refine ⟨txtSuffix_ne_empty (d ++ "/logs" ++ "/" ++ s), ?_⟩
  by_cases hj : mode.contains .json = true
  · rw [if_pos hj]
    exact fun h => jsonSuffix_ne_txtSuffix (d ++ "/logs" ++ "/" ++ s) h.symm
  · rw [if_neg hj]
    exact txtSuffix_ne_empty (d ++ "/logs" ++ "/" ++ s)

/-- Single-call behavior of the txt sink: with txt enabled, a truthy
text path distinct from the JSON path, writeLog appends exactly the one
formatted line to the text file, leaving the prior text in place. -/
theorem writeLog_txt_lookup (lg : Logger) (ts caller : String) (level : LogLevel)
    (msgs : List MsgArg) (fs : FS)
    (ht : lg.logModes.contains .txt = true)
    (hp : lg.textLogFilePath ≠ "")
    (hne : lg.textLogFilePath ≠ lg.logFilePath) :
    List.lookup lg.textLogFilePath (lg.writeLog ts caller level msgs fs).files =
      some (.plain (fs.fileText lg.textLogFilePath ++
        textLine ts lg.service lg.moduleName caller level (flattenMessages msgs))) := by
  have hct : (lg.logModes.contains .txt && decide (lg.textLogFilePath ≠ "")) = true := by
    simp [hp, List.elem_iff.mp ht]
  unfold Logger.writeLog
  simp only [hct, if_true]
  by_cases hcj : (lg.logModes.contains .json && decide (lg.logFilePath ≠ "")) = true
  · rw [if_pos hcj, lookup_appendFile_self]
    have : ((fs.writeFile lg.logFilePath
        (FileData.jsonLogs (readJsonLogs fs lg.logFilePath ++
          [lg.mkEntry ts caller level msgs]))).fileText lg.textLogFilePath) =
        fs.fileText lg.textLogFilePath := by
      unfold FS.fileText
      rw [lookup_writeFile_ne _ _ _ hne]
    rw [this]
    rfl
  · rw [if_neg hcj, lookup_appendFile_self]
    rfl

/-- writeLog with neither json nor txt among the modes leaves the
filesystem untouched. -/
theorem writeLog_no_file_modes (lg : Logger) (ts caller : String) (level : LogLevel)
    (msgs : List MsgArg) (fs : FS)
    (hj : lg.logModes.contains .json = false)
    (ht : lg.logModes.contains .txt = false) :
    lg.writeLog ts caller level msgs fs = fs := by
  have hj' : LogMode.json ∉ lg.logModes := by simpa using hj
  have ht' : LogMode.txt ∉ lg.logModes := by simpa using ht
  unfold Logger.writeLog
  simp [hj', ht']

/-- Any number of calls on a logger with neither file mode leave the
filesystem untouched. -/
theorem runCalls_no_file_modes (lg : Logger) (calls : List LogCall) (fs : FS)
    (hj : lg.logModes.contains .json = false)
    (ht : lg.logModes.contains .txt = false) :
    runCalls lg calls fs = fs := by
  induction calls generalizing fs with
  | nil => rfl
  | cons c rest ih =>
      rw [runCalls, writeLog_no_file_modes lg _ _ _ _ _ hj ht, ih]

/-- With hfile the JSON file holding the serialized array es, a run of
calls extends es by one entry per call, in call order. -/
theorem runCalls_json_lookup (lg : Logger) (calls : List LogCall) (fs : FS)
    (es : List LogEntry)
    (hj : lg.logModes.contains .json = true)
    (hp : lg.logFilePath ≠ "")
    (hne : lg.textLogFilePath ≠ lg.logFilePath)
    (hfile : List.lookup lg.logFilePath fs.files = some (.jsonLogs es)) :
    List.lookup lg.logFilePath (runCalls lg calls fs).files =
      some (.jsonLogs (es ++ calls.map fun c => lg.mkEntry c.ts c.caller c.level c.msgs)) := by
  induction calls generalizing fs es with
  | nil => simpa using hfile
  | cons c rest ih =>
      have hread : readJsonLogs fs lg.logFilePath = es := by
        simp [readJsonLogs, FS.existsFile, hfile]
      have hstep := writeLog_json_lookup lg c.ts c.caller c.level c.msgs fs hj hp hne
      rw [hread] at hstep
      rw [runCalls, ih _ _ hstep]
      simp

/-- Looking up the removed key finds nothing. -/
theorem lookup_removeKey_self (p : String) (reg : Registry) :
    List.lookup p (removeKey p reg) = none := by
  induction reg with
  | nil => rfl
  | cons hd tl ih =>
      obtain ⟨q, lg⟩ := hd
      by_cases hq : q = p
      · simpa [removeKey, hq] using ih
      · simp [removeKey, hq, List.lookup, beq_eq_false_iff_ne.mpr (Ne.symm hq), ih]

/-- Removing a key twice is the same as removing it once. -/
theorem removeKey_idem (p : String) (reg : Registry) :
    removeKey p (removeKey p reg) = removeKey p reg := by
  induction reg with
  | nil => rfl
  | cons hd tl ih =>
      obtain ⟨q, lg⟩ := hd
      by_cases hq : q = p
      · simpa [removeKey, hq] using ih
      · simp [removeKey, hq, ih]

/-- After any getLogger call, the registry holds the returned logger at
the identity key. -/
theorem getLogger_lookup_self (d s m : String) (mode : List LogMode)
    (reg : Registry) (fs : FS) :
    List.lookup (s ++ m) (getLogger d s m mode reg fs).2.1 =
      some (getLogger d s m mode reg fs).1 := by
  unfold getLogger
  cases h : List.lookup (s ++ m) reg <;> simp [h, List.lookup]

/-- getLogger on a cache hit returns the stored instance and changes
nothing. -/
theorem getLogger_hit (d s m : String) (mode : List LogMode) (reg : Registry)
    (fs : FS) (lg : Logger) (h : List.lookup (s ++ m) reg = some lg) :
    getLogger d s m mode reg fs = (lg, reg, fs) := by
  unfold getLogger
  rw [h]

/-- getLogger on a cache miss constructs, stores and returns a fresh
instance. -/
theorem getLogger_miss (d s m : String) (mode : List LogMode) (reg : Registry)
    (fs : FS) (h : List.lookup (s ++ m) reg = none) :
    getLogger d s m mode reg fs =
      ((Logger.create d s m mode fs).1,
        (s ++ m, (Logger.create d s m mode fs).1) :: reg,
        (Logger.create d s m mode fs).2) := by
  unfold getLogger
  rw [h]

/-
Claim theorems.
-/

/-- C1: for a logger constructed with json mode, a log-level call on a
JSON log file whose content does not parse as JSON completes without
error (the model function is total and the catch path yields the empty
array): the prior content is discarded and afterwards the file holds a
valid JSON array containing exactly the new entry. -/
theorem corrupt_json_file_recovered
    (dirname service moduleName ts caller garbage : String) (level : LogLevel)
    (mode : List LogMode) (msgs : List MsgArg) (fs0 fs : FS) (lg : Logger) (fs1 : FS)
    (hcreate : Logger.create dirname service moduleName mode fs0 = (lg, fs1))
    (hjson : mode.contains LogMode.json = true)
    (hcorrupt : List.lookup lg.logFilePath fs.files = some (FileData.plain garbage)) :
    List.lookup lg.logFilePath (lg.writeLog ts caller level msgs fs).files =
      some (FileData.jsonLogs [lg.mkEntry ts caller level msgs]) := by
  have hlg : (Logger.create dirname service moduleName mode fs0).1 = lg :=
    congrArg Prod.fst hcreate
  have hj : lg.logModes.contains LogMode.json = true := by
    rw [← hlg, create_logModes]
    exact hjson
  have hp : lg.logFilePath ≠ "" := by
    rw [← hlg]
    exact create_jsonPath_ne_empty dirname service moduleName mode fs0 hjson
  have hne : lg.textLogFilePath ≠ lg.logFilePath := by
    rw [← hlg]
    exact create_txtPath_ne_jsonPath dirname service moduleName mode fs0 hjson
  have hread : readJsonLogs fs lg.logFilePath = [] := by
    simp [readJsonLogs, FS.existsFile, hcorrupt]
  have hmain := writeLog_json_lookup lg ts caller level msgs fs hj hp hne
  rw [hread] at hmain
  simpa using hmain

/-- Witness for C1 at a concrete corrupt file. -/
theorem corrupt_json_file_recovered_witness :
    List.lookup "D/logs/svc.log.json"
      ((Logger.mk "svc" "mod" [LogMode.json] "D/logs/svc.log.json" "").writeLog
        "T" "C" LogLevel.info [MsgArg.str "hi"]
        ⟨["D/logs"], [("D/logs/svc.log.json", FileData.plain "!!not json!!")]⟩).files =
      some (FileData.jsonLogs
        [(Logger.mk "svc" "mod" [LogMode.json] "D/logs/svc.log.json" "").mkEntry
          "T" "C" LogLevel.info [MsgArg.str "hi"]]) :=
  corrupt_json_file_recovered "D" "svc" "mod" "T" "C" "!!not json!!" LogLevel.info
    [LogMode.json] [MsgArg.str "hi"] ⟨[], []⟩
    ⟨["D/logs"], [("D/logs/svc.log.json", FileData.plain "!!not json!!")]⟩
    (Logger.mk "svc" "mod" [LogMode.json] "D/logs/svc.log.json" "") ⟨["D/logs"], []⟩
    (by rfl) (by rfl) (by rfl)

/-- C2: a second getLogger call for the same (service, module) pair
returns exactly the instance, registry and filesystem produced by the
first call; in particular the modes argument of the second call (and dirname)
is ignored and the cached logger keeps its construction modes. -/
theorem getLogger_second_call_cached (d1 d2 s m : String)
    (mode1 mode2 : List LogMode) (reg : Registry) (fs : FS) :
    getLogger d2 s m mode2 (getLogger d1 s m mode1 reg fs).2.1
        (getLogger d1 s m mode1 reg fs).2.2 =
      getLogger d1 s m mode1 reg fs := by
  rw [getLogger_hit d2 s m mode2 _ _ _ (getLogger_lookup_self d1 s m mode1 reg fs)]

/-- C3: the entry written by a log-level call has as message the
arguments — structured ones replaced by their compact JSON
serialization, strings kept as-is — joined with the two-character
separator; and the concrete argument triple of the claim flattens to
exactly the literal string of the claim. -/
theorem writeLog_flattens_messages
    (dirname service moduleName ts caller : String) (level : LogLevel)
    (mode : List LogMode) (msgs : List MsgArg) (fs0 fs : FS) (lg : Logger) (fs1 : FS)
    (hcreate : Logger.create dirname service moduleName mode fs0 = (lg, fs1))
    (hjson : mode.contains LogMode.json = true)
    (hfresh : List.lookup lg.logFilePath fs.files = none) :
    (∃ e : LogEntry,
      List.lookup lg.logFilePath (lg.writeLog ts caller level msgs fs).files =
        some (FileData.jsonLogs [e]) ∧
      e.message = String.intercalate ", " (msgs.map fun a =>
        match a with
        | .str t => t
        | .obj j => j.stringify)) ∧
    flattenMessages [MsgArg.str "First",
        MsgArg.obj (Json.obj [("second", Json.bool true)]), MsgArg.str "Third"] =
      "First, \x7b\"second\":true\x7d, Third" := by
  have hlg : (Logger.create dirname service moduleName mode fs0).1 = lg :=
    congrArg Prod.fst hcreate
  have hj : lg.logModes.contains LogMode.json = true := by
    rw [← hlg, create_logModes]
    exact hjson
  have hp : lg.logFilePath ≠ "" := by
    rw [← hlg]
    exact create_jsonPath_ne_empty dirname service moduleName mode fs0 hjson
  have hne : lg.textLogFilePath ≠ lg.logFilePath := by
    rw [← hlg]
    exact create_txtPath_ne_jsonPath dirname service moduleName mode fs0 hjson
  have hread : readJsonLogs fs lg.logFilePath = [] := by
    simp [readJsonLogs, FS.existsFile, hfresh]
  have hmain := writeLog_json_lookup lg ts caller level msgs fs hj hp hne
  rw [hread] at hmain
  refine ⟨⟨lg.mkEntry ts caller level msgs, by simpa using hmain, rfl⟩, rfl⟩

/-- Witness for C3 at the concrete argument triple of the claim. -/
theorem writeLog_flattens_messages_witness :
    (∃ e : LogEntry,
      List.lookup "D/logs/svc.log.json"
        ((Logger.mk "svc" "mod" [LogMode.json] "D/logs/svc.log.json" "").writeLog
          "T" "C" LogLevel.info
          [MsgArg.str "First", MsgArg.obj (Json.obj [("second", Json.bool true)]),
            MsgArg.str "Third"]
          ⟨["D/logs"], []⟩).files =
        some (FileData.jsonLogs [e]) ∧
      e.message = String.intercalate ", "
        ([MsgArg.str "First", MsgArg.obj (Json.obj [("second", Json.bool true)]),
          MsgArg.str "Third"].map fun a =>
          match a with
          | .str t => t
          | .obj j => j.stringify)) ∧
    flattenMessages [MsgArg.str "First",
        MsgArg.obj (Json.obj [("second", Json.bool true)]), MsgArg.str "Third"] =
      "First, \x7b\"second\":true\x7d, Third" :=
  writeLog_flattens_messages "D" "svc" "mod" "T" "C" LogLevel.info [LogMode.json]
    [MsgArg.str "First", MsgArg.obj (Json.obj [("second", Json.bool true)]),
      MsgArg.str "Third"] ⟨[], []⟩ ⟨["D/logs"], []⟩
    (Logger.mk "svc" "mod" [LogMode.json] "D/logs/svc.log.json" "") ⟨["D/logs"], []⟩
    (by rfl) (by rfl) (by rfl)

/-- C4: for a logger constructed with txt mode, a log-level call leaves
the prior text content in place and appends exactly the single line
timestamp service module caller bracketed-uppercase-level colon message,
newline-terminated; and the line written by warn of the single string X
ends with the literal text bracket WARN bracket colon space X. -/
theorem txt_call_appends_one_line
    (dirname service moduleName ts caller prev : String) (level : LogLevel)
    (mode : List LogMode) (msgs : List MsgArg) (fs0 fs : FS) (lg : Logger) (fs1 : FS)
    (hcreate : Logger.create dirname service moduleName mode fs0 = (lg, fs1))
    (htxt : mode.contains LogMode.txt = true)
    (hprev : List.lookup lg.textLogFilePath fs.files = some (FileData.plain prev)) :
    List.lookup lg.textLogFilePath (lg.writeLog ts caller level msgs fs).files =
      some (FileData.plain (prev ++
        (ts ++ " " ++ service ++ " " ++ moduleName ++ " " ++ caller ++ " [" ++
          level.upper ++ "]: " ++ flattenMessages msgs ++ "\n"))) ∧
    ∃ q, textLine ts service moduleName caller LogLevel.warn
        (flattenMessages [MsgArg.str "X"]) = q ++ "[WARN]: X\n" := by
  have hlg : (Logger.create dirname service moduleName mode fs0).1 = lg :=
    congrArg Prod.fst hcreate
  have ht : lg.logModes.contains LogMode.txt = true := by
    rw [← hlg, create_logModes]
    exact htxt
  have hprops := create_txtPath_props dirname service moduleName mode fs0 htxt
  have hp : lg.textLogFilePath ≠ "" := by
    rw [← hlg]
    exact hprops.1
  have hne : lg.textLogFilePath ≠ lg.logFilePath := by
    rw [← hlg]
    exact hprops.2
  have hsvc : lg.service = service := by
    rw [← hlg, create_service]
  have hmod : lg.moduleName = moduleName := by
    rw [← hlg, create_moduleName]
  constructor
  · have hmain := writeLog_txt_lookup lg ts caller level msgs fs ht hp hne
    rw [hsvc, hmod] at hmain
    have hft : fs.fileText lg.textLogFilePath = prev := by
      simp [FS.fileText, hprev, FileData.render]
    rw [hft] at hmain
    exact hmain
  · refine ⟨ts ++ " " ++ service ++ " " ++ moduleName ++ " " ++ caller ++ " ", ?_⟩
    have hX : flattenMessages [MsgArg.str "X"] = "X" := rfl
    rw [hX]
    simp [textLine, LogLevel.upper, String.append_assoc]

/-- Witness for C4 at a concrete warn call on an existing text file. -/
theorem txt_call_appends_one_line_witness :
    List.lookup "D/logs/svc.log.txt"
      ((Logger.mk "svc" "mod" [LogMode.txt] "" "D/logs/svc.log.txt").writeLog
        "T" "C" LogLevel.warn [MsgArg.str "X"]
        ⟨["D/logs"], [("D/logs/svc.log.txt", FileData.plain "old line\n")]⟩).files =
      some (FileData.plain ("old line\n" ++
        ("T" ++ " " ++ "svc" ++ " " ++ "mod" ++ " " ++ "C" ++ " [" ++
          LogLevel.warn.upper ++ "]: " ++ flattenMessages [MsgArg.str "X"] ++ "\n"))) ∧
    ∃ q, textLine "T" "svc" "mod" "C" LogLevel.warn
        (flattenMessages [MsgArg.str "X"]) = q ++ "[WARN]: X\n" :=
  txt_call_appends_one_line "D" "svc" "mod" "T" "C" "old line\n" LogLevel.warn
    [LogMode.txt] [MsgArg.str "X"] ⟨[], []⟩
    ⟨["D/logs"], [("D/logs/svc.log.txt", FileData.plain "old line\n")]⟩
    (Logger.mk "svc" "mod" [LogMode.txt] "" "D/logs/svc.log.txt") ⟨["D/logs"], []⟩
    (by rfl) (by rfl) (by rfl)

/-- C5: for a logger constructed with json mode and no pre-existing JSON
file, after N ≥ 1 log-level calls the JSON file holds the serialized
array of exactly N entries, in call order, each carrying the flattened
message of its call; each call rewrote the whole array (the content
after each step is a full FileData.jsonLogs value, not an appended
fragment). -/
theorem json_file_after_n_calls
    (dirname service moduleName : String) (mode : List LogMode)
    (c : LogCall) (rest : List LogCall) (fs0 fs : FS) (lg : Logger) (fs1 : FS)
    (hcreate : Logger.create dirname service moduleName mode fs0 = (lg, fs1))
    (hjson : mode.contains LogMode.json = true)
    (hfresh : List.lookup lg.logFilePath fs.files = none) :
    List.lookup lg.logFilePath (runCalls lg (c :: rest) fs).files =
      some (FileData.jsonLogs ((c :: rest).map fun k =>
        lg.mkEntry k.ts k.caller k.level k.msgs)) ∧
    ((c :: rest).map fun k => lg.mkEntry k.ts k.caller k.level k.msgs).length
      = (c :: rest).length ∧
    (((c :: rest).map fun k => lg.mkEntry k.ts k.caller k.level k.msgs).map
        fun e => e.message) = (c :: rest).map fun k => flattenMessages k.msgs := by
  have hlg : (Logger.create dirname service moduleName mode fs0).1 = lg :=
    congrArg Prod.fst hcreate
  have hj : lg.logModes.contains LogMode.json = true := by
    rw [← hlg, create_logModes]
    exact hjson
  have hp : lg.logFilePath ≠ "" := by
    rw [← hlg]
    exact create_jsonPath_ne_empty dirname service moduleName mode fs0 hjson
  have hne : lg.textLogFilePath ≠ lg.logFilePath := by
    rw [← hlg]
    exact create_txtPath_ne_jsonPath dirname service moduleName mode fs0 hjson
  have hread : readJsonLogs fs lg.logFilePath = [] := by
    simp [readJsonLogs, FS.existsFile, hfresh]
  have hstep := writeLog_json_lookup lg c.ts c.caller c.level c.msgs fs hj hp hne
  rw [hread, List.nil_append] at hstep
  refine ⟨?_, by simp, by simp [Logger.mkEntry]⟩
  rw [runCalls,
    runCalls_json_lookup lg rest _ [lg.mkEntry c.ts c.caller c.level c.msgs] hj hp hne hstep]
  simp

/-- Witness for C5 with two concrete calls. -/
theorem json_file_after_n_calls_witness :
    List.lookup "D/logs/svc.log.json"
      (runCalls (Logger.mk "svc" "mod" [LogMode.json] "D/logs/svc.log.json" "")
        [LogCall.mk "T1" "C1" LogLevel.info [MsgArg.str "one"],
          LogCall.mk "T2" "C2" LogLevel.error [MsgArg.str "two"]]
        ⟨["D/logs"], []⟩).files =
      some (FileData.jsonLogs
        ([LogCall.mk "T1" "C1" LogLevel.info [MsgArg.str "one"],
          LogCall.mk "T2" "C2" LogLevel.error [MsgArg.str "two"]].map fun k =>
          (Logger.mk "svc" "mod" [LogMode.json] "D/logs/svc.log.json" "").mkEntry
            k.ts k.caller k.level k.msgs)) ∧
    ([LogCall.mk "T1" "C1" LogLevel.info [MsgArg.str "one"],
      LogCall.mk "T2" "C2" LogLevel.error [MsgArg.str "two"]].map fun k =>
      (Logger.mk "svc" "mod" [LogMode.json] "D/logs/svc.log.json" "").mkEntry
        k.ts k.caller k.level k.msgs).length =
      [LogCall.mk "T1" "C1" LogLevel.info [MsgArg.str "one"],
        LogCall.mk "T2" "C2" LogLevel.error [MsgArg.str "two"]].length ∧
    (([LogCall.mk "T1" "C1" LogLevel.info [MsgArg.str "one"],
      LogCall.mk "T2" "C2" LogLevel.error [MsgArg.str "two"]].map fun k =>
      (Logger.mk "svc" "mod" [LogMode.json] "D/logs/svc.log.json" "").mkEntry
        k.ts k.caller k.level k.msgs).map fun e => e.message) =
      [LogCall.mk "T1" "C1" LogLevel.info [MsgArg.str "one"],
        LogCall.mk "T2" "C2" LogLevel.error [MsgArg.str "two"]].map fun k =>
        flattenMessages k.msgs :=
  json_file_after_n_calls "D" "svc" "mod" [LogMode.json]
    (LogCall.mk "T1" "C1" LogLevel.info [MsgArg.str "one"])
    [LogCall.mk "T2" "C2" LogLevel.error [MsgArg.str "two"]]
    ⟨[], []⟩ ⟨["D/logs"], []⟩
    (Logger.mk "svc" "mod" [LogMode.json] "D/logs/svc.log.json" "") ⟨["D/logs"], []⟩
    (by rfl) (by rfl) (by rfl)

/-- C6: a logger whose modes contain neither json nor txt performs no
filesystem interaction: construction returns the filesystem unchanged,
and any sequence of log-level calls leaves any filesystem unchanged. -/
theorem console_only_touches_no_files
    (dirname service moduleName : String) (mode : List LogMode)
    (calls : List LogCall) (fs0 fs : FS)
    (hjson : mode.contains LogMode.json = false)
    (htxt : mode.contains LogMode.txt = false) :
    (Logger.create dirname service moduleName mode fs0).2 = fs0 ∧
    runCalls (Logger.create dirname service moduleName mode fs0).1 calls fs = fs := by
  have hj' : LogMode.json ∉ mode := by simpa using hjson
  have ht' : LogMode.txt ∉ mode := by simpa using htxt
  constructor
  · simp [Logger.create, hj', ht']
  · refine runCalls_no_file_modes _ calls fs ?_ ?_ <;>
      rw [create_logModes] <;> assumption

/-- Witness for C6 with a console-only mode list and two calls. -/
theorem console_only_touches_no_files_witness :
    (Logger.create "D" "svc" "mod" [LogMode.console]
      ⟨["x"], [("f", FileData.plain "t")]⟩).2 = ⟨["x"], [("f", FileData.plain "t")]⟩ ∧
    runCalls (Logger.create "D" "svc" "mod" [LogMode.console]
        ⟨["x"], [("f", FileData.plain "t")]⟩).1
      [LogCall.mk "T1" "C1" LogLevel.debug [MsgArg.str "a"],
        LogCall.mk "T2" "C2" LogLevel.fatal [MsgArg.str "b"]]
      ⟨["y"], []⟩ = ⟨["y"], []⟩ :=
  console_only_touches_no_files "D" "svc" "mod" [LogMode.console]
    [LogCall.mk "T1" "C1" LogLevel.debug [MsgArg.str "a"],
      LogCall.mk "T2" "C2" LogLevel.fatal [MsgArg.str "b"]]
    ⟨["x"], [("f", FileData.plain "t")]⟩ ⟨["y"], []⟩ (by rfl) (by rfl)

/-- getLoggerJS when the prototype-chain read is undefined (no own entry
and the key is not an inherited property name): a fresh logger is
constructed, stored and returned. -/
theorem getLoggerJS_miss (d s m : String) (mode : List LogMode) (reg : Registry)
    (fs : FS) (hown : List.lookup (s ++ m) reg = none)
    (hproto : objectProtoKeys.contains (s ++ m) = false) :
    getLoggerJS d s m mode reg fs =
      (JsValue.logger (Logger.create d s m mode fs).1,
        (s ++ m, (Logger.create d s m mode fs).1) :: reg,
        (Logger.create d s m mode fs).2) := by
  have hr : readProp reg (s ++ m) = .undefined := by
    unfold readProp
    rw [hown, if_neg (by simpa using hproto)]
  unfold getLoggerJS
  rw [hr]

/-- Counterexample to C7 as stated: at the identity ("to", "String") the
key is the inherited Object.prototype member toString, which the miss
test !instances[id] sees as truthy; so after removeLogger (a no-op on
the non-own key) the subsequent getLogger constructs nothing — it
returns the inherited non-Logger value and leaves the registry empty,
never building a fresh Logger honoring the new modes. -/
theorem proto_key_no_fresh_logger :
    (getLoggerJS "D" "to" "String" [LogMode.txt]
        (removeLogger "to" "String" []) ⟨[], []⟩).1 =
      JsValue.protoFn "toString" ∧
    (getLoggerJS "D" "to" "String" [LogMode.txt]
        (removeLogger "to" "String" []) ⟨[], []⟩).2.1 = [] :=
  ⟨rfl, rfl⟩

/-- C7 (amended): for every identity whose key service ++ module is not
the name of a property inherited from Object.prototype, removeLogger
deletes the registry entry for the identity (lookup afterwards finds
nothing), is idempotent — hence a no-op without error when the entry is
absent — takes no filesystem argument at all (it cannot touch on-disk
files), and a subsequent getLogger for the same identity constructs,
stores and returns a fresh instance honoring the new modes. -/
theorem removeLogger_then_fresh_getLogger_ownKey (dirname s m : String)
    (mode2 : List LogMode) (reg : Registry) (fs : FS)
    (hproto : objectProtoKeys.contains (s ++ m) = false) :
    List.lookup (s ++ m) (removeLogger s m reg) = none ∧
    removeLogger s m (removeLogger s m reg) = removeLogger s m reg ∧
    getLoggerJS dirname s m mode2 (removeLogger s m reg) fs =
      (JsValue.logger (Logger.create dirname s m mode2 fs).1,
        (s ++ m, (Logger.create dirname s m mode2 fs).1) :: removeLogger s m reg,
        (Logger.create dirname s m mode2 fs).2) ∧
    (Logger.create dirname s m mode2 fs).1.logModes = mode2 := by
  have h0 : List.lookup (s ++ m) (removeLogger s m reg) = none :=
    lookup_removeKey_self (s ++ m) reg
  exact ⟨h0, removeKey_idem (s ++ m) reg,
    getLoggerJS_miss dirname s m mode2 (removeLogger s m reg) fs h0 hproto,
    create_logModes dirname s m mode2 fs⟩

/-- Witness for amended C7 at a concrete non-inherited identity. -/
theorem removeLogger_then_fresh_getLogger_ownKey_witness :
    List.lookup ("svc" ++ "mod") (removeLogger "svc" "mod"
      [("svcmod", Logger.mk "svc" "mod" [LogMode.json] "D/logs/svc.log.json" "")]) = none ∧
    removeLogger "svc" "mod" (removeLogger "svc" "mod"
        [("svcmod", Logger.mk "svc" "mod" [LogMode.json] "D/logs/svc.log.json" "")]) =
      removeLogger "svc" "mod"
        [("svcmod", Logger.mk "svc" "mod" [LogMode.json] "D/logs/svc.log.json" "")] ∧
    getLoggerJS "D" "svc" "mod" [LogMode.txt] (removeLogger "svc" "mod"
        [("svcmod", Logger.mk "svc" "mod" [LogMode.json] "D/logs/svc.log.json" "")])
        ⟨[], []⟩ =
      (JsValue.logger (Logger.create "D" "svc" "mod" [LogMode.txt] ⟨[], []⟩).1,
        ("svc" ++ "mod", (Logger.create "D" "svc" "mod" [LogMode.txt] ⟨[], []⟩).1) ::
          removeLogger "svc" "mod"
            [("svcmod", Logger.mk "svc" "mod" [LogMode.json] "D/logs/svc.log.json" "")],
        (Logger.create "D" "svc" "mod" [LogMode.txt] ⟨[], []⟩).2) ∧
    (Logger.create "D" "svc" "mod" [LogMode.txt] ⟨[], []⟩).1.logModes = [LogMode.txt] :=
  removeLogger_then_fresh_getLogger_ownKey "D" "svc" "mod" [LogMode.txt]
    [("svcmod", Logger.mk "svc" "mod" [LogMode.json] "D/logs/svc.log.json" "")]
    ⟨[], []⟩ (by rfl)

/-- C8: the registry key is the plain concatenation service ++ module,
so two identities with equal concatenations are the same identity: after
getLogger for the first, getLogger for the second returns the logger of
the first and changes nothing, and removeLogger for the second removes
the entry of the first. -/
theorem registry_key_collision (dirname s1 m1 s2 m2 : String)
    (mode1 mode2 : List LogMode) (reg : Registry) (fs : FS)
    (hkey : s1 ++ m1 = s2 ++ m2) :
    getLogger dirname s2 m2 mode2 (getLogger dirname s1 m1 mode1 reg fs).2.1
        (getLogger dirname s1 m1 mode1 reg fs).2.2 =
      ((getLogger dirname s1 m1 mode1 reg fs).1,
        (getLogger dirname s1 m1 mode1 reg fs).2.1,
        (getLogger dirname s1 m1 mode1 reg fs).2.2) ∧
    List.lookup (s1 ++ m1)
      (removeLogger s2 m2 (getLogger dirname s1 m1 mode1 reg fs).2.1) = none := by
  have hl := getLogger_lookup_self dirname s1 m1 mode1 reg fs
  have hl2 : List.lookup (s2 ++ m2) (getLogger dirname s1 m1 mode1 reg fs).2.1 =
      some (getLogger dirname s1 m1 mode1 reg fs).1 := by
    rw [← hkey]
    exact hl
  refine ⟨getLogger_hit dirname s2 m2 mode2 _ _ _ hl2, ?_⟩
  unfold removeLogger
  rw [← hkey]
  exact lookup_removeKey_self (s1 ++ m1) _

/-- Witness for C8 at the colliding identities of the claim. -/
theorem registry_key_collision_witness :
    getLogger "D" "a" "bc" [LogMode.txt] (getLogger "D" "ab" "c" [LogMode.json] [] ⟨[], []⟩).2.1
        (getLogger "D" "ab" "c" [LogMode.json] [] ⟨[], []⟩).2.2 =
      ((getLogger "D" "ab" "c" [LogMode.json] [] ⟨[], []⟩).1,
        (getLogger "D" "ab" "c" [LogMode.json] [] ⟨[], []⟩).2.1,
        (getLogger "D" "ab" "c" [LogMode.json] [] ⟨[], []⟩).2.2) ∧
    List.lookup ("ab" ++ "c")
      (removeLogger "a" "bc" (getLogger "D" "ab" "c" [LogMode.json] [] ⟨[], []⟩).2.1) = none :=
  registry_key_collision "D" "ab" "c" "a" "bc" [LogMode.json] [LogMode.txt] [] ⟨[], []⟩
    (by rfl)

/-- C9: for every constructed logger, logFilePath equals
logsDir/service.log.json exactly when json is among the construction
modes (and the empty string otherwise), textLogFilePath analogously for
txt; set-ness (truthiness) of each path is equivalent to its mode.  In
the embedding a Logger value is immutable and writeLog returns only a
filesystem, so paths cannot change after construction. -/
theorem file_paths_iff_modes (dirname service moduleName : String)
    (mode : List LogMode) (fs : FS) :
    ((Logger.create dirname service moduleName mode fs).1.logFilePath =
      if mode.contains LogMode.json then
        dirname ++ "/logs" ++ "/" ++ service ++ ".log.json" else "") ∧
    ((Logger.create dirname service moduleName mode fs).1.textLogFilePath =
      if mode.contains LogMode.txt then
        dirname ++ "/logs" ++ "/" ++ service ++ ".log.txt" else "") ∧
    ((Logger.create dirname service moduleName mode fs).1.logFilePath ≠ "" ↔
      mode.contains LogMode.json = true) ∧
    ((Logger.create dirname service moduleName mode fs).1.textLogFilePath ≠ "" ↔
      mode.contains LogMode.txt = true) := by
  refine ⟨create_logFilePath dirname service moduleName mode fs,
    create_textLogFilePath dirname service moduleName mode fs, ?_, ?_⟩
  · rw [create_logFilePath]
    by_cases hj : mode.contains LogMode.json = true
    · rw [if_pos hj]
      simp [List.elem_iff.mp hj,
        jsonSuffix_ne_empty (dirname ++ "/logs" ++ "/" ++ service)]
    · rw [if_neg hj]
      have hj' : LogMode.json ∉ mode := by simpa using Bool.of_not_eq_true hj
      simp [hj']
  · rw [create_textLogFilePath]
    by_cases ht : mode.contains LogMode.txt = true
    · rw [if_pos ht]
      simp [List.elem_iff.mp ht,
        txtSuffix_ne_empty (dirname ++ "/logs" ++ "/" ++ service)]
    · rw [if_neg ht]
      have ht' : LogMode.txt ∉ mode := by simpa using Bool.of_not_eq_true ht
      simp [ht']

/-- C10: the computed file paths mention the service name but not the
module name: two loggers constructed with the same service and the same
file modes (json-membership and txt-membership agree) get equal
jsonFilePath values and equal textFilePath values, whatever their
modules — so they address the same on-disk files. -/
theorem file_paths_ignore_module (dirname service m1 m2 : String)
    (mode1 mode2 : List LogMode) (fsa fsb : FS)
    (hj : mode1.contains LogMode.json = mode2.contains LogMode.json)
    (ht : mode1.contains LogMode.txt = mode2.contains LogMode.txt) :
    (Logger.create dirname service m1 mode1 fsa).1.logFilePath =
      (Logger.create dirname service m2 mode2 fsb).1.logFilePath ∧
    (Logger.create dirname service m1 mode1 fsa).1.textLogFilePath =
      (Logger.create dirname service m2 mode2 fsb).1.textLogFilePath := by
  rw [create_logFilePath, create_logFilePath, create_textLogFilePath,
    create_textLogFilePath, hj, ht]
  exact ⟨rfl, rfl⟩

/-- Witness for C10 at two concrete loggers differing only in module. -/
theorem file_paths_ignore_module_witness :
    (Logger.create "D" "svc" "modA" [LogMode.json, LogMode.txt] ⟨[], []⟩).1.logFilePath =
      (Logger.create "D" "svc" "modB" [LogMode.json, LogMode.txt] ⟨["D/logs"], []⟩).1.logFilePath ∧
    (Logger.create "D" "svc" "modA" [LogMode.json, LogMode.txt] ⟨[], []⟩).1.textLogFilePath =
      (Logger.create "D" "svc" "modB" [LogMode.json, LogMode.txt] ⟨["D/logs"], []⟩).1.textLogFilePath :=
  file_paths_ignore_module "D" "svc" "modA" "modB" [LogMode.json, LogMode.txt]
    [LogMode.json, LogMode.txt] ⟨[], []⟩ ⟨["D/logs"], []⟩ (by rfl) (by rfl)

end NotTheLogger
